import Mathlib

/-!
Verification of the pbj electrostatics core: a shallow embedding of
`src/pbj/electrostatics/simulation.py` and `src/pbj/electrostatics/solute.py`.

Numeric arrays are modelled over `ℚ`.  The floating-point library functions
`np.sqrt` and `np.exp` and the float power `** 0.16666667` are abstracted as
explicit function parameters (`rsqrt`, `rexp`, `powSixth`) wherever they occur:
every property proved below is independent of their numeric values, and keeping
them abstract keeps the development executable.  External collaborators that
the spec puts out of scope (the boundary-operator library, scipy, mesh and
charge loading) appear as opaque type parameters or abstract functions.
-/

namespace PBJ

/-- Python `or` between two strings: returns the left operand when it is truthy
(non-empty), otherwise the right operand.  Models the expression
`("direct" or "direct_stern" or "slic" or "direct_amoeba")` in
`Simulation.__init__` (simulation.py lines 51-53), which evaluates to the
single string `"direct"`. -/
def pyOr (a b : String) : String := if a ≠ "" then a else b

/-- The `_pb_formulation` value resolved by `Simulation.__init__`
(simulation.py lines 11-19): with a Stern layer and a formulation other than
`"slic"` the resolved name is `"direct_stern"`, otherwise the given name. -/
def resolvedFormulation (formulation : String) (stern_layer : Bool) : String :=
  if stern_layer ∧ formulation ≠ "slic" then "direct_stern" else formulation

/-- The preconditioning type chosen at the end of `Simulation.__init__`
(simulation.py lines 51-56).  The membership test in the source is written
`self._pb_formulation == ("direct" or "direct_stern" or "slic" or
"direct_amoeba")`, a comparison against the value of the Python `or` chain. -/
def initPrecondType (formulation : String) (stern_layer : Bool) : String :=
  if resolvedFormulation formulation stern_layer
      = pyOr (pyOr (pyOr "direct" "direct_stern") "slic") "direct_amoeba" then
    "block_diagonal"
  else "mass_matrix"

/-- The per-body `Solute` state fields that the simulation-level code of the
two source files reads or writes (solute.py `__init__` lines 171-203; plain
Python attributes unless noted otherwise).  `oid` stands for the Python object
identity, which is what `Solute`'s default `==` and the list membership test
`solute in self.solutes` compare.  The `"preconditioning_matrix_gmres"` entry
of `self.matrices` is modelled as `Option (Option ℕ)`: `none` means the key is
absent from the dict, `some none` means it is present with value `None`, and
`some (some m)` means a cached matrix (abstracted to a tag `m`) is stored. -/
structure SoluteState where
  oid : ℕ
  ep_ex : ℚ
  ep_in : ℚ
  ep_stern : ℚ
  e_hat_stern : ℚ
  pb_formulation_beta : ℚ
  kappa : ℚ
  SOR : ℚ
  induced_dipole_iter_tol : ℚ
  operator_assembler : String
  pb_formulation_preconditioning : Bool
  pb_formulation_preconditioning_type : String
  pb_formulation : String
  formulation_object : Option String
  force_field : String
  mesh_density : ℚ
  stern_mesh_density_r : ℚ
  stern_mesh_density : ℚ
  matrices_precond_gmres : Option (Option ℕ)
deriving DecidableEq

/-- `Solute.pb_formulation` property setter (solute.py lines 216-224): stores
the name, re-resolves the formulation object (the
`pb_formulation.formulations` module is abstracted as the membership predicate
`known`), inserts the `"preconditioning_matrix_gmres"` dict entry as `None`
ONLY when the key is absent (source comment: "might already exist if just
regenerating RHS"), and finally raises `ValueError` when the name does not
resolve.  The first component is the raised error message, if any, paired with
the state as the setter leaves it. -/
def solutePbFormulationSet (known : String → Bool) (s : SoluteState)
    (value : String) : Option String × SoluteState :=
  let s1 : SoluteState :=
    { s with
      pb_formulation := value
      formulation_object := if known value then some value else none
      matrices_precond_gmres :=
        match s.matrices_precond_gmres with
        | none => some none
        | some v => some v }
  if known value then (none, s1) else (some "Unrecognised formulation type", s1)

/-- The `Simulation` state fields read or written by the code under
verification (simulation.py `__init__` lines 11-60), with the same conventions
as `SoluteState`. -/
structure SimulationState where
  pb_formulation : String
  formulation_object : Option String
  matrices_precond_gmres : Option (Option ℕ)
  solutes : List SoluteState
  ep_ex : ℚ
  kappa : ℚ
  SOR : ℚ
  induced_dipole_iter_tol : ℚ
  operator_assembler : String
  pb_formulation_preconditioning : Bool
  pb_formulation_preconditioning_type : String
deriving DecidableEq

/-- `Simulation.pb_formulation` property setter (simulation.py lines 66-76):
stores the name, re-resolves the formulation object, unconditionally resets
the simulation's own `"preconditioning_matrix_gmres"` matrices entry to
`None`, raises on an unresolved name, and otherwise cascades the assignment to
every owned solute through `Solute.pb_formulation` (whose setter cannot raise
then, the name being known). -/
def simPbFormulationSet (known : String → Bool) (sim : SimulationState)
    (value : String) : Option String × SimulationState :=
  let sim1 : SimulationState :=
    { sim with
      pb_formulation := value
      formulation_object := if known value then some value else none
      matrices_precond_gmres := some none }
  if known value then
    (none,
     { sim1 with
       solutes := sim1.solutes.map
         (fun t => (solutePbFormulationSet known t value).2) })
  else (some "Unrecognised formulation type", sim1)

/-- The argument handed to `Simulation.add_solute`: either a `Solute` instance
or any other Python object (which fails the `isinstance` test). -/
inductive PyArg where
  | solute (s : SoluteState)
  | nonSolute
deriving DecidableEq

/-- `Simulation.add_solute` (simulation.py lines 132-164): a non-`Solute`
argument raises `ValueError` before anything is touched; a solute already in
the list (Python object identity) is ignored; otherwise the shared simulation
parameters are copied onto the solute, the Stern mesh density is set for
Stern/slic formulations (its property setter also builds the Stern mesh, an
external effect on geometry that is not modelled), the simulation switches to
`"direct_amoeba"` for an AMOEBA solute, and the solute is appended at the end
of the list. -/
def addSolute (known : String → Bool) (sim : SimulationState) (arg : PyArg) :
    Option String × SimulationState :=
  match arg with
  | .nonSolute => (some "Given object is not of the Solute class.", sim)
  | .solute s =>
    if sim.solutes.any (fun t => t.oid == s.oid) then (none, sim)
    else
      let s1 : SoluteState :=
        { s with
          ep_ex := sim.ep_ex
          kappa := sim.kappa
          SOR := sim.SOR
          induced_dipole_iter_tol := sim.induced_dipole_iter_tol
          operator_assembler := sim.operator_assembler
          pb_formulation_preconditioning := sim.pb_formulation_preconditioning
          pb_formulation_preconditioning_type :=
            sim.pb_formulation_preconditioning_type }
      let s2 : SoluteState :=
        if sim.pb_formulation.takeRight 5 == "stern" ∨ sim.pb_formulation == "slic"
        then { s1 with stern_mesh_density := s1.stern_mesh_density_r * s1.mesh_density }
        else s1
      if s2.force_field == "amoeba" then
        let r := simPbFormulationSet known sim "direct_amoeba"
        match r.1 with
        | some e => (some e, r.2)
        | none => (none, { r.2 with solutes := r.2.solutes ++ [s2] })
      else (none, { sim with solutes := sim.solutes ++ [s2] })

/-- `Solute.apply_preconditioning` (solute.py lines 287-312).  The active
formulation object's preconditioner builders are abstracted as the partial map
`getattrF` from attribute name to builder, modelling
`getattr(self.formulation_object, precon_str, None)`; the
disabled-preconditioning branch, which only discretises the already built weak
forms through `pbj.electrostatics.utils` (code outside src/), is abstracted as
`noPrecond`.  With preconditioning enabled and no builder named
`<type>_preconditioner` on the formulation, `ValueError` is raised before any
state is touched. -/
def applyPreconditioning
    (getattrF : String → Option (SoluteState → SoluteState))
    (noPrecond : SoluteState → SoluteState) (s : SoluteState) :
    Option String × SoluteState :=
  if s.pb_formulation_preconditioning then
    match getattrF (s.pb_formulation_preconditioning_type ++ "_preconditioner") with
    | some builder => (none, builder s)
    | none =>
      (some "Unrecognised preconditioning type for current formulation type", s)
  else (none, noPrecond s)

section Assembly

variable {Op DOp PB : Type}

/-- Modelled from the spec: `Formulation.lhs_inter_solute_interactions` lives
in the `pb_formulation.formulations` package, which is not under src/.  Per
spec section 4.1 step 4 and the section 5 ordering guarantee, it builds the
inter-body coupling operator for the ordered pair (target, source) — held
abstract here as the value `coupling target source` — and appends it to the
target's `matrices["A_inter"]` list, so that for a fixed target the couplings
appear in source-body insertion order excluding the target itself. -/
def lhsInterSoluteInteractions (coupling : ℕ → ℕ → Op) (Ainter : List Op)
    (target source : ℕ) : List Op :=
  Ainter ++ [coupling target source]

/-- The inner source loop of the second double loop of
`Simulation.create_and_assemble_linear_system` (simulation.py lines 291-309)
for a fixed target `i`, after processing the sources `0, …, n-1`: returns the
target's accumulated `A_inter` list together with the off-diagonal entries
`A[i][·]` placed so far (`none` = never assigned, matching the fresh
`np.empty` object array).  For each source `j ≠ i` the code reads the coupling
back out of `A_inter` at `index_array = j` when `i > j` and `j - 1` otherwise,
and stores its weak form: "always weak form as it's not touched by
preconditioner". -/
def interLoopAux (coupling : ℕ → ℕ → Op) (weakForm : Op → DOp) (i : ℕ) :
    ℕ → List Op × (ℕ → Option DOp)
  | 0 => ([], fun _ => none)
  | n + 1 =>
    let acc := interLoopAux coupling weakForm i n
    if i = n then acc
    else
      let lst := lhsInterSoluteInteractions coupling acc.1 i n
      let idx := if i > n then n else n - 1
      (lst, fun j => if j = n then (lst[idx]?).map weakForm else acc.2 j)

/-- The global block operator entries assembled by
`Simulation.create_and_assemble_linear_system` (simulation.py lines 166-313):
the first loop stores each body's `solute.matrices["A_discrete"]` — the
finalized self block left by `initialise_matrices` / `apply_preconditioning`,
abstracted as `selfBlock index` — at `A[index, index]`, and the second double
loop fills the off-diagonal entries from each target's `A_inter` list.
Entries outside the `M × M` range are never assigned (`none`).  The
right-hand-side bookkeeping of the same function is not modelled: no claim
refers to it. -/
def createAndAssembleA (selfBlock : ℕ → DOp) (coupling : ℕ → ℕ → Op)
    (weakForm : Op → DOp) (M : ℕ) : ℕ → ℕ → Option DOp := fun i j =>
  if i < M ∧ j < M then
    if i = j then some (selfBlock i)
    else (interLoopAux coupling weakForm i M).2 j
  else none

/-- A block of the global preconditioner row lists: either one of a body's own
preconditioner sub-blocks, or an explicitly sized zero block
(`dok_matrix((m, n))`) filled in for a cross-body region. -/
inductive PBlock (PB : Type) where
  | real (b : PB)
  | zfill (m n : ℕ)
deriving DecidableEq

/-- The per-body inputs of the preconditioner assembly inside
`create_and_assemble_linear_system` (simulation.py lines 201-281): the Python
object identity (the Stern branch tests `solute == solute_source`), whether
`solute.stern_object` is set, the dirichl-space grid dof counts of the
dielectric and Stern interfaces, and the body's own
`matrices["preconditioning_matrix_gmres"]` row blocks — built by the
formulation's preconditioner, code outside src/, and therefore held abstract
as row lists of opaque blocks (`none` models the entry being `None`). -/
structure BodyPre (PB : Type) where
  oid : ℕ
  hasStern : Bool
  dofDiel : ℕ
  dofStern : ℕ
  precond : Option (List (List PB))
deriving DecidableEq

/-- The rows that body number `index` contributes to `precond_matrix`
(simulation.py lines 201-281): nothing when its `preconditioning_matrix_gmres`
is `None`; otherwise two rows (no Stern layer) or four rows (Stern layer),
where the source loop extends each row with the body's own sub-blocks at its
own position and with explicitly sized zero blocks for every other source. -/
def precondRowsFor (bodies : List (BodyPre PB)) (index : ℕ) (body : BodyPre PB) :
    List (List (PBlock PB)) :=
  match body.precond with
  | none => []
  | some own =>
    if body.hasStern = false then
      let tb := bodies.enum.foldl
        (fun (acc : List (PBlock PB) × List (PBlock PB)) p =>
          if p.1 = index then
            (acc.1 ++ (own.getD 0 []).map PBlock.real,
             acc.2 ++ (own.getD 1 []).map PBlock.real)
          else
            let z := PBlock.zfill body.dofDiel p.2.dofDiel
            (acc.1 ++ [z, z], acc.2 ++ [z, z]))
        ([], [])
      [tb.1, tb.2]
    else
      let r := bodies.enum.foldl
        (fun (acc : List (PBlock PB) × List (PBlock PB) × List (PBlock PB)
                × List (PBlock PB)) p =>
          if body.oid = p.2.oid then
            (acc.1 ++ (own.getD 0 []).map PBlock.real,
             acc.2.1 ++ (own.getD 1 []).map PBlock.real,
             acc.2.2.1 ++ (own.getD 2 []).map PBlock.real,
             acc.2.2.2 ++ (own.getD 3 []).map PBlock.real)
          else
            let zdd := PBlock.zfill body.dofDiel p.2.dofDiel
            let zsd := PBlock.zfill body.dofStern p.2.dofDiel
            let zds := PBlock.zfill body.dofDiel p.2.dofStern
            let zss := PBlock.zfill body.dofStern p.2.dofStern
            (acc.1 ++ [zdd, zdd] ++ [zds, zds],
             acc.2.1 ++ [zdd, zdd] ++ [zds, zds],
             acc.2.2.1 ++ [zsd, zsd] ++ [zss, zss],
             acc.2.2.2 ++ [zsd, zsd] ++ [zss, zss]))
        ([], [], [], [])
      [r.1, r.2.1, r.2.2.1, r.2.2.2]

/-- The full `precond_matrix` row list accumulated across bodies by the first
loop of `create_and_assemble_linear_system` (simulation.py lines 175 and
201-281); the subsequent scipy `bmat` / `aslinearoperator` call (line 283-287)
belongs to an external collaborator, so assembly stops at the row list handed
to `bmat`. -/
def precondMatrix (bodies : List (BodyPre PB)) : List (List (PBlock PB)) :=
  bodies.enum.foldl (fun acc p => acc ++ precondRowsFor bodies p.1 p.2) []

end Assembly

/-! ### Pairwise multipole kernels (solute.py lines 953-1477)

Positions, dipoles and quadrupoles are `ℚ`-valued; particle arrays are
functions from `ℕ` (values at indices `≥ N` are never read).  `rsqrt`, `rexp`
and `powSixth` abstract `np.sqrt`, `np.exp` and `** 0.16666667`. -/

/-- A 3-vector of rationals (one row of an `(N, 3)` numpy array). -/
abbrev Vec3 := Fin 3 → ℚ

/-- A 3×3 rational matrix (one entry of an `(N, 3, 3)` numpy array). -/
abbrev Mat3 := Fin 3 → Fin 3 → ℚ

/-- The literal `eps = 1e-15` set at the top of every pairwise kernel
(solute.py lines 973, 1034, 1130, 1218, 1313, 1411). -/
def epsQ : ℚ := 1 / 10 ^ 15

/-- The squared separation `np.sum(Ri * Ri)` of particles `i` and `j`. -/
def dist2 (xq : ℕ → Vec3) (i j : ℕ) : ℚ :=
  ∑ k, (xq i k - xq j k) * (xq i k - xq j k)

/-- The regularised squared distance `np.sum((Ri*Ri), axis=1) + eps*eps`
computed before every `np.sqrt` in the pairwise kernels (solute.py lines 981,
1047, 1141, 1235, 1330, 1428). -/
def rnormSq (xq : ℕ → Vec3) (i j : ℕ) : ℚ := dist2 xq i j + epsQ * epsQ

/-- The per-particle data shared by all pairwise kernels: positions, permanent
multipoles, polarizability diagonal `alpha[:,0,0]`, Thole factors, polar-group
ids, and the 1-2/1-3 exclusion topology in CSR form (flattened neighbor arrays
plus per-particle offset pointers). -/
structure AmoebaBody where
  N : ℕ
  xq : ℕ → Vec3
  q : ℕ → ℚ
  d : ℕ → Vec3
  Q : ℕ → Mat3
  alphaxx : ℕ → ℚ
  thole : ℕ → ℚ
  polar_group : ℕ → ℤ
  connections_12 : ℕ → ℕ
  pointer_connections_12 : ℕ → ℕ
  connections_13 : ℕ → ℕ
  pointer_connections_13 : ℕ → ℕ

/-- Pair term of `_calculate_coulomb_phi_multipole` (solute.py lines 966-996):
the rank-0/1/2 interaction tensors `T0 = 1/Rnorm`, `T1 = Ri/Rnorm³` and
`T2[k,l] = Ri_k · Ri_l / Rnorm⁵` contracted with the source's charge, dipole
and quadrupole. -/
def coulombPhiPair (rsqrt : ℚ → ℚ) (B : AmoebaBody) (i j : ℕ) : ℚ :=
  let Rn := rsqrt (rnormSq B.xq i j)
  B.q j * (1 / Rn)
    + (∑ k, ((B.xq i k - B.xq j k) / Rn ^ 3) * B.d j k)
    + 1 / 2 * ∑ k, ∑ l,
        ((B.xq i k - B.xq j k) * (B.xq i l - B.xq j l) / Rn ^ 5) * B.Q j k l

/-- `_calculate_coulomb_phi_multipole` (solute.py lines 966-996): the self
pair is removed from every per-pair array with `np.delete` before the
accumulation, hence the sum over `(range N).erase i`. -/
def coulombPhiMultipole (rsqrt : ℚ → ℚ) (B : AmoebaBody) (i : ℕ) : ℚ :=
  ∑ j ∈ (Finset.range B.N).erase i, coulombPhiPair rsqrt B i j

/-- The loop filter `for j in np.where(Rnorm > 1e-12)[0]` of the
permanent-multipole gradient and Hessian kernels (solute.py lines 1049 and
1143).  `Rnorm = np.sqrt(rnormSq)` and both sides are positive, so
`Rnorm > 1e-12` holds exactly when `rnormSq > (1e-12)² = 1e-24`; the filter is
embedded in this squared form to stay within `ℚ`. -/
def permIncluded (xq : ℕ → Vec3) (i j : ℕ) : Prop :=
  1 / 10 ^ 24 < rnormSq xq i j

instance (xq : ℕ → Vec3) (i j : ℕ) : Decidable (permIncluded xq i j) := by
  unfold permIncluded; infer_instance

/-- The Thole damping scales of `_calculate_coulomb_dphi_multipole`
(solute.py lines 1036-1069): `scale3/5/7` are initialised to 1.0 and
reassigned per pair only when `flag_polar_group` is set, from
`damp = -gamma * R3 / ((alpha_i·alpha_j)^(1/6) + 1e-12)³` and
`expdamp = np.exp(damp)`. -/
def permDampScales (rsqrt rexp powSixth : ℚ → ℚ) (B : AmoebaBody) (i j : ℕ)
    (flag : Bool) : ℚ × ℚ × ℚ :=
  if flag then
    let R3 := rsqrt (rnormSq B.xq i j) ^ 3
    let gamma := min (B.thole i) (B.thole j)
    let damp0 := powSixth (B.alphaxx i * B.alphaxx j) + 1 / 10 ^ 12
    let damp := -1 * gamma * (R3 / (damp0 * damp0 * damp0))
    let expdamp := rexp damp
    (1 - expdamp, 1 - expdamp * (1 - damp),
     1 - expdamp * (1 - damp + 3 / 5 * damp * damp))
  else (1, 1, 1)

/-- Pair contribution of `_calculate_coulomb_dphi_multipole` (solute.py lines
1042-1099): zero when `flag_polar_group` is set and the two particles share a
polar group (`not_same_polar_group == False`); otherwise the damped rank-1/2/3
tensors `T0`, `T1`, `T2` of lines 1083-1094 contracted with the source
multipoles. -/
def coulombDphiPair (rsqrt rexp powSixth : ℚ → ℚ) (B : AmoebaBody)
    (flag : Bool) (i j : ℕ) : Vec3 :=
  if flag ∧ B.polar_group i = B.polar_group j then fun _ => 0
  else
    let s := permDampScales rsqrt rexp powSixth B i j flag
    let Ri := fun k => B.xq i k - B.xq j k
    let Rn := rsqrt (rnormSq B.xq i j)
    let R3 := Rn ^ 3
    let R5 := Rn ^ 5
    let R7 := Rn ^ 7
    fun k =>
      (-Ri k / R3 * s.1) * B.q j
        + (∑ l, ((if k = l then 1 else 0) / R3 * s.1
                  - 3 * Ri k * Ri l / R5 * s.2.1) * B.d j l)
        + 1 / 2 * ∑ l, ∑ m,
            (((if k = m then 1 else 0) * Ri l
                + (if k = l then 1 else 0) * Ri m) / R5 * s.2.1
              - 5 * Ri l * Ri m * Ri k / R7 * s.2.2) * B.Q j l m

/-- `_calculate_coulomb_dphi_multipole` (solute.py lines 1019-1101), the
permanent-multipole field gradient. -/
def coulombDphiMultipole (rsqrt rexp powSixth : ℚ → ℚ) (B : AmoebaBody)
    (flag : Bool) (i : ℕ) : Vec3 := fun k =>
  ∑ j ∈ (Finset.range B.N).filter (permIncluded B.xq i),
    coulombDphiPair rsqrt rexp powSixth B flag i j k

/-- Pair contribution of `_calculate_coulomb_ddphi_multipole` (solute.py lines
1136-1177), the undamped permanent-multipole field Hessian; `R9 = R3 ** 3` as
in line 1148. -/
def coulombDdphiPair (rsqrt : ℚ → ℚ) (B : AmoebaBody) (i j : ℕ) : Mat3 :=
  let Ri := fun k => B.xq i k - B.xq j k
  let Rn := rsqrt (rnormSq B.xq i j)
  let R3 := Rn ^ 3
  let R5 := Rn ^ 5
  let R7 := Rn ^ 7
  let R9 := R3 ^ 3
  fun k l =>
    let dkl : ℚ := if k = l then 1 else 0
    (-dkl / R3 + 3 * Ri k * Ri l / R5) * B.q j
      + (∑ m, (-3 * ((if k = m then 1 else 0) * Ri l + dkl * Ri m
                      + (if l = m then 1 else 0) * Ri k) / R5
               + 15 * Ri l * Ri m * Ri k / R7) * B.d j m)
      + 1 / 2 * ∑ m, ∑ n,
          (35 * Ri k * Ri l * Ri m * Ri n / R9
            - 5 * (Ri m * Ri n * dkl
                    + Ri l * Ri n * (if k = m then 1 else 0)
                    + Ri m * Ri l * (if k = n then 1 else 0)
                    + Ri k * Ri n * (if l = m then 1 else 0)
                    + Ri m * Ri k * (if l = n then 1 else 0)) / R7
            + ((if k = m then 1 else 0) * (if l = n then 1 else 0)
                + (if l = m then 1 else 0) * (if k = n then 1 else 0)) / R5)
          * B.Q j m n

/-- `_calculate_coulomb_ddphi_multipole` (solute.py lines 1117-1179). -/
def coulombDdphiMultipole (rsqrt : ℚ → ℚ) (B : AmoebaBody) (i : ℕ) : Mat3 :=
  fun k l =>
    ∑ j ∈ (Finset.range B.N).filter (permIncluded B.xq i),
      coulombDdphiPair rsqrt B i j k l

/-- Whether `j` occurs in particle `i`'s 1-2 CSR slice, i.e. the scan
`for ii in range(start_12, stop_12): if connections_12[ii] == j` of the Thole
kernels (solute.py lines 1241-1245 and analogues) found a match. -/
def listed12 (B : AmoebaBody) (i j : ℕ) : Bool :=
  (List.range' (B.pointer_connections_12 i)
    (B.pointer_connections_12 (i + 1) - B.pointer_connections_12 i)).any
    (fun ii => B.connections_12 ii == j)

/-- Whether `j` occurs in particle `i`'s 1-3 CSR slice (solute.py lines
1247-1251 and analogues). -/
def listed13 (B : AmoebaBody) (i j : ℕ) : Bool :=
  (List.range' (B.pointer_connections_13 i)
    (B.pointer_connections_13 (i + 1) - B.pointer_connections_13 i)).any
    (fun ii => B.connections_13 ii == j)

/-- The connectivity scale determined at the top of every Thole kernel
(solute.py lines 1239-1251, 1334-1346, 1432-1444): `pscale` starts at 1.0, is
set to `p12scale` when `j` occurs in `i`'s 1-2 slice, and afterwards to
`p13scale` when `j` occurs in the 1-3 slice — the 1-3 scan runs second and
wins if both match. -/
def pscaleOf (B : AmoebaBody) (p12scale p13scale : ℚ) (i j : ℕ) : ℚ :=
  if listed13 B i j then p13scale
  else if listed12 B i j then p12scale
  else 1

/-- The loop filter `for j in np.where(r < 1e12)[0]` of the Thole kernels
(solute.py lines 1237, 1332, 1430).  `r = 1/np.sqrt(rnormSq)` with a positive
argument, so `r < 1e12` holds exactly when `np.sqrt(rnormSq) > 1e-12`, i.e.
`rnormSq > 1e-24`; the filter is embedded in this squared form to stay within
`ℚ`.  A pair is skipped exactly when `dist2 + eps² ≤ 1e-24`. -/
def tholeIncluded (xq : ℕ → Vec3) (i j : ℕ) : Prop :=
  1 / 10 ^ 24 < rnormSq xq i j

instance (xq : ℕ → Vec3) (i j : ℕ) : Decidable (tholeIncluded xq i j) := by
  unfold tholeIncluded; infer_instance

/-- The Thole damping exponent and its exponential, shared by the three
induced-dipole kernels (solute.py lines 1253-1259, 1348-1355, 1446-1454):
`damp = -gamma / (r³ · ((alpha_i·alpha_j)^(1/6) + 1e-12)³)` with
`r = 1/np.sqrt(rnormSq)`, and `expdamp = np.exp(damp)`. -/
def tholeDamp (rsqrt rexp powSixth : ℚ → ℚ) (B : AmoebaBody) (i j : ℕ) :
    ℚ × ℚ :=
  let r := 1 / rsqrt (rnormSq B.xq i j)
  let r3 := r ^ 3
  let gamma := min (B.thole i) (B.thole j)
  let damp0 := powSixth (B.alphaxx i * B.alphaxx j) + 1 / 10 ^ 12
  let damp := -gamma * (1 / (r3 * damp0 ^ 3))
  (damp, rexp damp)

/-- Pair term of `_calculate_coulomb_phi_multipole_Thole` (solute.py lines
1207-1271): `T1[k] = Ri_k · r³ · scale3 · pscale` contracted with the induced
dipole of the source. -/
def tholePhiPair (rsqrt rexp powSixth : ℚ → ℚ) (B : AmoebaBody)
    (mu : ℕ → Vec3) (p12scale p13scale : ℚ) (i j : ℕ) : ℚ :=
  let r := 1 / rsqrt (rnormSq B.xq i j)
  let r3 := r ^ 3
  let de := tholeDamp rsqrt rexp powSixth B i j
  let scale3 := 1 - de.2
  let pscale := pscaleOf B p12scale p13scale i j
  ∑ k, ((B.xq i k - B.xq j k) * r3 * scale3 * pscale) * mu j k

/-- `_calculate_coulomb_phi_multipole_Thole` (solute.py lines 1207-1271), the
potential due to the induced dipoles `mu`. -/
def tholePhi (rsqrt rexp powSixth : ℚ → ℚ) (B : AmoebaBody) (mu : ℕ → Vec3)
    (p12scale p13scale : ℚ) (i : ℕ) : ℚ :=
  ∑ j ∈ (Finset.range B.N).filter (tholeIncluded B.xq i),
    tholePhiPair rsqrt rexp powSixth B mu p12scale p13scale i j

/-- Pair term of `_calculate_coulomb_dphi_multipole_Thole` (solute.py lines
1302-1371): `T1[l] = scale3·δkl·r³·pscale − scale5·3·Ri_k·Ri_l·r⁵·pscale`
contracted with the induced dipole of the source. -/
def tholeDphiPair (rsqrt rexp powSixth : ℚ → ℚ) (B : AmoebaBody)
    (mu : ℕ → Vec3) (p12scale p13scale : ℚ) (i j : ℕ) : Vec3 :=
  let r := 1 / rsqrt (rnormSq B.xq i j)
  let r3 := r ^ 3
  let r5 := r ^ 5
  let de := tholeDamp rsqrt rexp powSixth B i j
  let scale3 := 1 - de.2
  let scale5 := 1 - de.2 * (1 - de.1)
  let pscale := pscaleOf B p12scale p13scale i j
  fun k => ∑ l,
    (scale3 * (if k = l then 1 else 0) * r3 * pscale
      - scale5 * 3 * (B.xq i k - B.xq j k) * (B.xq i l - B.xq j l) * r5 * pscale)
    * mu j l

/-- `_calculate_coulomb_dphi_multipole_Thole` (solute.py lines 1302-1371), the
field gradient due to the induced dipoles `mu`. -/
def tholeDphi (rsqrt rexp powSixth : ℚ → ℚ) (B : AmoebaBody) (mu : ℕ → Vec3)
    (p12scale p13scale : ℚ) (i : ℕ) : Vec3 := fun k =>
  ∑ j ∈ (Finset.range B.N).filter (tholeIncluded B.xq i),
    tholeDphiPair rsqrt rexp powSixth B mu p12scale p13scale i j k

/-- Pair term of `_calculate_coulomb_ddphi_multipole_Thole` (solute.py lines
1400-1477): `T1[m] = (−3(δkm·Ri_l + δkl·Ri_m + δlm·Ri_k)·r⁵·scale5 +
15·Ri_l·Ri_m·Ri_k·r⁷·scale7)·pscale` contracted with the induced dipole. -/
def tholeDdphiPair (rsqrt rexp powSixth : ℚ → ℚ) (B : AmoebaBody)
    (mu : ℕ → Vec3) (p12scale p13scale : ℚ) (i j : ℕ) : Mat3 :=
  let Ri := fun k => B.xq i k - B.xq j k
  let r := 1 / rsqrt (rnormSq B.xq i j)
  let r5 := r ^ 5
  let r7 := r ^ 7
  let de := tholeDamp rsqrt rexp powSixth B i j
  let scale5 := 1 - de.2 * (1 - de.1)
  let scale7 := 1 - de.2 * (1 - de.1 + 3 / 5 * de.1 * de.1)
  let pscale := pscaleOf B p12scale p13scale i j
  fun k l => ∑ m,
    (-3 * ((if k = m then 1 else 0) * Ri l + (if k = l then 1 else 0) * Ri m
            + (if l = m then 1 else 0) * Ri k) * r5 * scale5 * pscale
      + 15 * Ri l * Ri m * Ri k * r7 * scale7 * pscale) * mu j m

/-- `_calculate_coulomb_ddphi_multipole_Thole` (solute.py lines 1400-1477). -/
def tholeDdphi (rsqrt rexp powSixth : ℚ → ℚ) (B : AmoebaBody) (mu : ℕ → Vec3)
    (p12scale p13scale : ℚ) (i : ℕ) : Mat3 := fun k l =>
  ∑ j ∈ (Finset.range B.N).filter (tholeIncluded B.xq i),
    tholeDdphiPair rsqrt rexp powSixth B mu p12scale p13scale i j k l

/-! ### The self-consistent induced-dipole solver (solute.py lines 849-951) -/

/-- The solute scalar parameters the induced-dipole routines read: the SOR
relaxation factor, the interior permittivity, the convergence tolerance, and
the body's configured 1-2/1-3 exclusion scales. -/
structure PolParams where
  SOR : ℚ
  ep_in : ℚ
  induced_dipole_iter_tol : ℚ
  p12scale : ℚ
  p13scale : ℚ

/-- One execution of the `while` loop body of
`Solute.calculate_induced_dipole_vacuum` (solute.py lines 916-937) as a
function of the current induced dipoles: the Thole field gradient is evaluated
with both exclusion scales equal to 1.0 (the source temporarily swaps
`u12scale = u13scale = 1.0` into `self.p12scale`/`self.p13scale` around the
kernel call and restores them, lines 918-927, so the kernel receives the
constants 1), the permanent-multipole gradient `dphi_perm` cached in
`self.results` is reused unchanged, and each particle `i < N` is updated by
the SOR-damped blend of line 937; the array holds `N` entries, so indices
beyond `N` are untouched. -/
def vacuumStep (rsqrt rexp powSixth : ℚ → ℚ) (B : AmoebaBody) (P : PolParams)
    (dphi_perm : ℕ → Vec3) (dcur : ℕ → Vec3) : ℕ → Vec3 := fun i =>
  if i < B.N then
    let dphi_coul := fun k =>
      dphi_perm i k + tholeDphi rsqrt rexp powSixth B dcur 1 1 i k
    let E_total := fun k => dphi_coul k / P.ep_in * (-1)
    fun k => dcur i k * (1 - P.SOR) + B.alphaxx i * E_total k * P.SOR
  else dcur i

/-- The convergence metric of solute.py lines 939-942:
`np.max(np.sqrt(np.sum(np.linalg.norm(d_prev - d, axis=1)**2) / len(d)))` —
the root-mean-square Euclidean norm of the per-particle change.  `np.max` of
the resulting scalar is the scalar itself, and the inner
`np.linalg.norm(·, axis=1)**2` — a squared square root — is embedded as the
exact sum of squares `∑ k, Δ²` it equals over the reals. -/
def rmsResidual (rsqrt : ℚ → ℚ) (N : ℕ) (dprev dcur : ℕ → Vec3) : ℚ :=
  rsqrt ((∑ i ∈ Finset.range N, ∑ k, (dprev i k - dcur i k) ^ 2) / (N : ℚ))

/-- The `while induced_dipole_residual > self.induced_dipole_iter_tol` loop of
`calculate_induced_dipole_vacuum` (solute.py lines 913-949).  The source loop
has NO iteration cap; `fuel` only bounds how many loop-body executions this
model is willing to unfold, and `none` reports that the loop had not exited
within `fuel` executions.  On exit the final residual and dipole state are
returned. -/
def vacuumLoop (rsqrt rexp powSixth : ℚ → ℚ) (B : AmoebaBody) (P : PolParams)
    (dphi_perm : ℕ → Vec3) : ℕ → ℚ → (ℕ → Vec3) → Option (ℚ × (ℕ → Vec3))
  | 0, res, dcur =>
    if res ≤ P.induced_dipole_iter_tol then some (res, dcur) else none
  | fuel + 1, res, dcur =>
    if res ≤ P.induced_dipole_iter_tol then some (res, dcur)
    else
      let dnew := vacuumStep rsqrt rexp powSixth B P dphi_perm dcur
      vacuumLoop rsqrt rexp powSixth B P dphi_perm fuel
        (rmsResidual rsqrt B.N dcur dnew) dnew

/-- The sequence of (residual, dipole-state) pairs obtained by executing the
vacuum loop body unconditionally `m` times from a start state; used to
characterise the `while` loop. -/
def vacuumSteps (rsqrt rexp powSixth : ℚ → ℚ) (B : AmoebaBody) (P : PolParams)
    (dphi_perm : ℕ → Vec3) (res : ℚ) (dcur : ℕ → Vec3) : ℕ → ℚ × (ℕ → Vec3)
  | 0 => (res, dcur)
  | m + 1 =>
    let prev := vacuumSteps rsqrt rexp powSixth B P dphi_perm res dcur m
    let dnew := vacuumStep rsqrt rexp powSixth B P dphi_perm prev.2
    (rmsResidual rsqrt B.N prev.2 dnew, dnew)

/-- `Solute.calculate_induced_dipole_vacuum` (solute.py lines 892-951): seeds
the vacuum induced dipoles with `np.zeros_like(self.d)`, computes the
permanent-multipole field gradient and stores it in
`results["d_phi_coulomb_multipole"]` only when that key is absent (lines
904-906), and runs the fixed-point loop from the sentinel residual 1.0 (line
913).  Returns the cache entry as left in `results`, paired with the loop
outcome (`results["induced_dipole_vacuum"]` plus the final residual). -/
def calculateInducedDipoleVacuum (rsqrt rexp powSixth : ℚ → ℚ)
    (B : AmoebaBody) (P : PolParams) (cached : Option (ℕ → Vec3)) (fuel : ℕ) :
    (ℕ → Vec3) × Option (ℚ × (ℕ → Vec3)) :=
  let dphi_perm :=
    match cached with
    | some v => v
    | none => fun i => coulombDphiMultipole rsqrt rexp powSixth B true i
  (dphi_perm, vacuumLoop rsqrt rexp powSixth B P dphi_perm fuel 1 fun _ _ => 0)

/-- `Solute.calculate_induced_dipole_dissolved` (solute.py lines 849-889): one
relaxation step per call, seeded with the stored `results["induced_dipole"]`
state; the Thole gradient is evaluated with `u12scale = u13scale = 1.0`
(lines 856-872 swap and restore the body's scales, so the kernel receives the
constants 1) and the permanent gradient is cached in `results` exactly like
the vacuum routine; `dphi_reac` is the boundary reaction-field gradient
`results["gradphir_charges"]` from the external solver, and `piQ` stands for
the float constant `np.pi` of line 884.  Returns the updated cache entry
paired with the new stored induced-dipole state. -/
def calculateInducedDipoleDissolved (rsqrt rexp powSixth : ℚ → ℚ) (piQ : ℚ)
    (B : AmoebaBody) (P : PolParams) (cached : Option (ℕ → Vec3))
    (dphi_reac : ℕ → Vec3) (stored : ℕ → Vec3) : (ℕ → Vec3) × (ℕ → Vec3) :=
  let dphi_perm :=
    match cached with
    | some v => v
    | none => fun i => coulombDphiMultipole rsqrt rexp powSixth B true i
  let dnew := fun i =>
    if i < B.N then
      let dphi_coul := fun k =>
        dphi_perm i k + tholeDphi rsqrt rexp powSixth B stored 1 1 i k
      let E_total := fun k =>
        (dphi_coul k / P.ep_in + 4 * piQ * dphi_reac i k) * (-1)
      fun k => stored i k * (1 - P.SOR) + B.alphaxx i * E_total k * P.SOR
    else stored i
  (dphi_perm, dnew)

/-! ### Theorems -/

/-- C9: `Simulation.__init__` sets `pb_formulation_preconditioning_type` to
"block_diagonal" exactly when the resolved formulation is the single string
"direct": the Python membership test `== ("direct" or "direct_stern" or
"slic" or "direct_amoeba")` compares against the value "direct" of the `or`
chain, so "direct_stern", "slic", "direct_amoeba" and every other formulation
receive "mass_matrix". -/
theorem C9_precond_type_only_direct :
    (∀ (f : String) (s : Bool),
        initPrecondType f s = "block_diagonal"
          ↔ resolvedFormulation f s = "direct")
    ∧ pyOr (pyOr (pyOr "direct" "direct_stern") "slic") "direct_amoeba"
        = "direct"
    ∧ initPrecondType "direct_stern" true = "mass_matrix"
    ∧ initPrecondType "slic" false = "mass_matrix"
    ∧ initPrecondType "direct_amoeba" false = "mass_matrix" := by
  refine ⟨fun f s => ?_, by decide, by decide, by decide, by decide⟩
  unfold initPrecondType
  have hor : pyOr (pyOr (pyOr "direct" "direct_stern") "slic") "direct_amoeba"
      = "direct" := by decide
  rw [hor]
  by_cases h : resolvedFormulation f s = "direct"
  · simp [h]
  · simp only [if_neg h]
    constructor
    · intro hbad; exact absurd hbad (by decide)
    · intro hc; exact absurd hc h

/-- A concrete body state that already holds a cached preconditioning matrix
(tag 7) in its `matrices` dict; used as input for several claims. -/
def c4Solute : SoluteState :=
  { oid := 0, ep_ex := 80, ep_in := 4, ep_stern := 80, e_hat_stern := 1,
    pb_formulation_beta := 20, kappa := 1/8, SOR := 7/10,
    induced_dipole_iter_tol := 1/100, operator_assembler := "dense",
    pb_formulation_preconditioning := true,
    pb_formulation_preconditioning_type := "block_diagonal",
    pb_formulation := "direct", formulation_object := some "direct",
    force_field := "amber", mesh_density := 2, stern_mesh_density_r := 1,
    stern_mesh_density := 2, matrices_precond_gmres := some (some 7) }

/-- A concrete simulation state owning no solutes. -/
def c4Sim : SimulationState :=
  { pb_formulation := "direct", formulation_object := some "direct",
    matrices_precond_gmres := some (some 3), solutes := [],
    ep_ex := 80, kappa := 1/8, SOR := 7/10, induced_dipole_iter_tol := 1/100,
    operator_assembler := "dense", pb_formulation_preconditioning := true,
    pb_formulation_preconditioning_type := "block_diagonal" }

/-- C4 (counterexample): assigning the valid formulation "direct" to a body
that already caches a preconditioning matrix raises nothing and leaves the
cached matrix in place — the body's entry is not reset to `None`. -/
theorem C4_counterexample :
    (solutePbFormulationSet (fun v => v == "direct") c4Solute "direct").1 = none
    ∧ (solutePbFormulationSet (fun v => v == "direct") c4Solute
        "direct").2.matrices_precond_gmres = some (some 7)
    ∧ (solutePbFormulationSet (fun v => v == "direct") c4Solute
        "direct").2.matrices_precond_gmres ≠ some none := by
  exact ⟨rfl, rfl, by decide⟩

/-- C4 (amended): assigning a valid formulation to a body's `pb_formulation`
property raises nothing and stores the name, but does NOT invalidate an
existing cached `preconditioning_matrix_gmres` entry: the entry is set to
`None` only when the key was absent, and an existing entry (cached matrix or
`None`) is kept unchanged.  The simulation-level setter, by contrast, resets
the simulation's own cached entry unconditionally. -/
theorem C4_amended (known : String → Bool) (s : SoluteState)
    (sim : SimulationState) (v : String) (hv : known v = true) :
    (solutePbFormulationSet known s v).1 = none
    ∧ (solutePbFormulationSet known s v).2.pb_formulation = v
    ∧ (∀ m, s.matrices_precond_gmres = some m →
        (solutePbFormulationSet known s v).2.matrices_precond_gmres = some m)
    ∧ (s.matrices_precond_gmres = none →
        (solutePbFormulationSet known s v).2.matrices_precond_gmres = some none)
    ∧ (simPbFormulationSet known sim v).2.matrices_precond_gmres = some none := by
  refine ⟨?_, ?_, ?_, ?_, ?_⟩
  · simp [solutePbFormulationSet, hv]
  · simp [solutePbFormulationSet, hv]
  · intro m hm; simp [solutePbFormulationSet, hv, hm]
  · intro hm; simp [solutePbFormulationSet, hv, hm]
  · simp [simPbFormulationSet, hv]

/-- C4 (witness): the amended statement evaluated on the concrete cached body
and the concrete simulation. -/
theorem C4_amended_witness :
    (fun v => v == "direct") "direct" = true
    ∧ (solutePbFormulationSet (fun v => v == "direct") c4Solute
        "direct").2.matrices_precond_gmres = some (some 7) :=
  ⟨by decide,
   (C4_amended (fun v => v == "direct") c4Solute c4Sim "direct"
      (by decide)).2.2.1 (some 7) rfl⟩

/-- C7: with preconditioning enabled, `apply_preconditioning` raises a
configuration `ValueError` exactly when the active formulation object has no
builder named `<type>_preconditioner`, leaving the body untouched (no partial
system is produced); when the builder exists, no such error is raised. -/
theorem C7_missing_builder_raises
    (getattrF : String → Option (SoluteState → SoluteState))
    (noPrecond : SoluteState → SoluteState) (s : SoluteState)
    (henabled : s.pb_formulation_preconditioning = true) :
    (getattrF (s.pb_formulation_preconditioning_type ++ "_preconditioner")
        = none →
      (applyPreconditioning getattrF noPrecond s).1
          = some "Unrecognised preconditioning type for current formulation type"
        ∧ (applyPreconditioning getattrF noPrecond s).2 = s)
    ∧ ∀ b,
      getattrF (s.pb_formulation_preconditioning_type ++ "_preconditioner")
          = some b →
        (applyPreconditioning getattrF noPrecond s).1 = none := by
  constructor
  · intro h
    constructor <;> simp [applyPreconditioning, henabled, h]
  · intro b h
    simp [applyPreconditioning, henabled, h]

/-- C7 (witness): a formulation object with no builders at all makes the
enabled body fail with the configuration error and leaves it untouched. -/
theorem C7_missing_builder_raises_witness :
    (applyPreconditioning (fun _ => none) id c4Solute).1
        = some "Unrecognised preconditioning type for current formulation type"
    ∧ (applyPreconditioning (fun _ => none) id c4Solute).2 = c4Solute :=
  (C7_missing_builder_raises (fun _ => none) id c4Solute rfl).1 rfl

/-- Concrete particle positions: particle `i` sits at `(i, i, i)`. -/
def c5xq : ℕ → Vec3 := fun i _ => (i : ℚ)

/-- C5 (counterexample): at two concrete particles √3 apart, the quantity the
kernels add inside the squared-distance sum (solute.py line 981 and
analogues) is 1e-30 = (1e-15)², not the epsilon 1e-15 itself. -/
theorem C5_counterexample :
    rnormSq c5xq 0 1 ≠ dist2 c5xq 0 1 + 1 / 10 ^ 15
    ∧ rnormSq c5xq 0 1 = dist2 c5xq 0 1 + 1 / 10 ^ 30 := by
  have hd : dist2 c5xq 0 1 = 3 := by
    unfold dist2 c5xq
    rw [Fin.sum_univ_three]
    norm_num
  have hv : rnormSq c5xq 0 1 = 3 + 1 / 10 ^ 30 := by
    unfold rnormSq epsQ
    rw [hd]
    norm_num
  constructor
  · rw [hv, hd]; norm_num
  · rw [hv, hd]

/-- C5 (amended): in every pairwise kernel the regularising quantity added
inside the squared-distance sum before the square root is the SQUARE of the
epsilon 1e-15, i.e. 1e-30 — not 1e-15 itself — and the (negligible) self pair
is excluded from every accumulation: `np.delete` removes it from the
permanent-potential sum, and the regularised self distance 1e-30 fails both
the `Rnorm > 1e-12` filter (permanent gradient and Hessian) and the `r < 1e12`
filter (Thole kernels), so for every particle i the self pair contributes
exactly zero to the returned potential, gradient and Hessian. -/
theorem C5_eps_and_self_exclusion (rsqrt rexp powSixth : ℚ → ℚ)
    (B : AmoebaBody) (mu : ℕ → Vec3) (p12 p13 : ℚ) (flag : Bool) (i : ℕ) :
    (∀ (xq : ℕ → Vec3) (a b : ℕ),
        rnormSq xq a b - dist2 xq a b = 1 / 10 ^ 30)
    ∧ coulombPhiMultipole rsqrt B i
        = (∑ j ∈ Finset.range B.N,
            if j = i then 0 else coulombPhiPair rsqrt B i j)
    ∧ ¬ permIncluded B.xq i i
    ∧ ¬ tholeIncluded B.xq i i
    ∧ (∀ k, coulombDphiMultipole rsqrt rexp powSixth B flag i k
        = ∑ j ∈ ((Finset.range B.N).erase i).filter (permIncluded B.xq i),
            coulombDphiPair rsqrt rexp powSixth B flag i j k)
    ∧ (∀ k l, coulombDdphiMultipole rsqrt B i k l
        = ∑ j ∈ ((Finset.range B.N).erase i).filter (permIncluded B.xq i),
            coulombDdphiPair rsqrt B i j k l)
    ∧ tholePhi rsqrt rexp powSixth B mu p12 p13 i
        = ∑ j ∈ ((Finset.range B.N).erase i).filter (tholeIncluded B.xq i),
            tholePhiPair rsqrt rexp powSixth B mu p12 p13 i j
    ∧ (∀ k, tholeDphi rsqrt rexp powSixth B mu p12 p13 i k
        = ∑ j ∈ ((Finset.range B.N).erase i).filter (tholeIncluded B.xq i),
            tholeDphiPair rsqrt rexp powSixth B mu p12 p13 i j k)
    ∧ (∀ k l, tholeDdphi rsqrt rexp powSixth B mu p12 p13 i k l
        = ∑ j ∈ ((Finset.range B.N).erase i).filter (tholeIncluded B.xq i),
            tholeDdphiPair rsqrt rexp powSixth B mu p12 p13 i j k l) := by
  have hd0 : dist2 B.xq i i = 0 := by
    unfold dist2; simp
  have hperm : ¬ permIncluded B.xq i i := by
    unfold permIncluded rnormSq epsQ
    rw [hd0]
    norm_num
  have hthole : ¬ tholeIncluded B.xq i i := by
    unfold tholeIncluded rnormSq epsQ
    rw [hd0]
    norm_num
  have hsetP : ((Finset.range B.N).erase i).filter (permIncluded B.xq i)
      = (Finset.range B.N).filter (permIncluded B.xq i) := by
    rw [Finset.filter_erase]
    exact Finset.erase_eq_of_not_mem (by simp [hperm])
  have hsetT : ((Finset.range B.N).erase i).filter (tholeIncluded B.xq i)
      = (Finset.range B.N).filter (tholeIncluded B.xq i) := by
    rw [Finset.filter_erase]
    exact Finset.erase_eq_of_not_mem (by simp [hthole])
  refine ⟨?_, ?_, hperm, hthole, ?_, ?_, ?_, ?_, ?_⟩
  · intro xq a b
    unfold rnormSq epsQ
    ring_nf
  · unfold coulombPhiMultipole
    have h1 : ∑ j ∈ (Finset.range B.N).erase i, coulombPhiPair rsqrt B i j
        = ∑ j ∈ (Finset.range B.N).erase i,
            (if j = i then 0 else coulombPhiPair rsqrt B i j) := by
      refine Finset.sum_congr rfl fun j hj => ?_
      rw [if_neg (Finset.ne_of_mem_erase hj)]
    rw [h1]
    exact Finset.sum_erase _ (by simp)
  · intro k; unfold coulombDphiMultipole; rw [hsetP]
  · intro k l; unfold coulombDdphiMultipole; rw [hsetP]
  · unfold tholePhi; rw [hsetT]
  · intro k; unfold tholeDphi; rw [hsetT]
  · intro k l; unfold tholeDdphi; rw [hsetT]

/-- Concrete positions for the skip-threshold counterexample: particles 0 and
1 are separated by `1e-12 − 1e-20` along the x-axis — strictly less than the
1e-12 the claim names as the skip threshold. -/
def c6xq : ℕ → Vec3 := fun i k =>
  if i = 0 then 0 else if (k : ℕ) = 0 then 1 / 10 ^ 12 - 1 / 10 ^ 20 else 0

/-- A concrete two-particle body with no exclusion topology, zero permanent
multipoles, zero polarizabilities and the default Thole factor 0.39, placed at
`c6xq`. -/
def c6body : AmoebaBody :=
  { N := 2, xq := c6xq, q := fun _ => 0, d := fun _ _ => 0, Q := fun _ _ _ => 0,
    alphaxx := fun _ => 0, thole := fun _ => 39 / 100,
    polar_group := fun i => (i : ℤ),
    connections_12 := fun _ => 0, pointer_connections_12 := fun _ => 0,
    connections_13 := fun _ => 0, pointer_connections_13 := fun _ => 0 }

/-- Concrete induced dipoles: every particle carries the unit dipole along x. -/
def c6mu : ℕ → Vec3 := fun _ k => if (k : ℕ) = 0 then 1 else 0

/-- C6 (counterexample): the pair (0, 1) of `c6body` has separation strictly
below 1e-12, yet it passes the `r < 1e12` filter and contributes a nonzero
amount to the Thole field gradient at particle 0 — with `np.sqrt` and `np.exp`
instantiated to the constant functions 1 and 0 and the sixth-root power to the
constant 1; the pair is included regardless of those instantiations, since
the filter only tests the regularised squared distance. -/
theorem C6_counterexample :
    dist2 c6xq 0 1 < (1 / 10 ^ 12) ^ 2
    ∧ tholeIncluded c6xq 0 1
    ∧ tholeDphi (fun _ => 1) (fun _ => 0) (fun _ => 1) c6body c6mu 1 1 0 0 ≠ 0 := by
  have hd : dist2 c6xq 0 1 = (1 / 10 ^ 12 - 1 / 10 ^ 20) ^ 2 := by
    unfold dist2 c6xq
    rw [Fin.sum_univ_three]
    norm_num
  have hlt : dist2 c6xq 0 1 < (1 / 10 ^ 12) ^ 2 := by rw [hd]; norm_num
  have hinc : tholeIncluded c6xq 0 1 := by
    unfold tholeIncluded rnormSq epsQ
    rw [hd]
    norm_num
  have hself : ¬ tholeIncluded c6xq 0 0 := by
    have h0 : dist2 c6xq 0 0 = 0 := by unfold dist2; simp
    unfold tholeIncluded rnormSq epsQ
    rw [h0]
    norm_num
  refine ⟨hlt, hinc, ?_⟩
  have hfil : (Finset.range c6body.N).filter (tholeIncluded c6body.xq 0)
      = {1} := by
    show (Finset.range 2).filter (tholeIncluded c6xq 0) = {1}
    rw [show (2 : ℕ) = 1 + 1 from rfl, Finset.range_succ, Finset.range_one,
      Finset.filter_insert, if_pos hinc, Finset.filter_singleton, if_neg hself]
    rfl
  unfold tholeDphi
  rw [hfil, Finset.sum_singleton]
  unfold tholeDphiPair tholeDamp pscaleOf listed12 listed13
  simp only [c6body, c6mu, c6xq, List.range']
  rw [Fin.sum_univ_three]
  norm_num

/-- C6 (amended): in the Thole induced-dipole kernels a pair (i, j) is skipped
exactly when its regularised squared distance `dist² + 1e-30` is at most
`1e-24`, i.e. when the separation is at most `sqrt(1e-24 − 1e-30)` — a
threshold slightly BELOW 1e-12, so a pair with separation marginally under
1e-12 still contributes; in particular every self pair is skipped.  An
included pair's contribution in all three routines is the unscaled
contribution multiplied by `pscale`, which is `p13scale` when j occurs in i's
1-3 slice (the 1-3 scan runs second and wins), otherwise `p12scale` when j
occurs in the 1-2 slice, and 1.0 for an unconnected pair. -/
theorem C6_skip_and_scaling (rsqrt rexp powSixth : ℚ → ℚ) (B : AmoebaBody)
    (mu : ℕ → Vec3) (p12 p13 : ℚ) (i j : ℕ) :
    (tholeIncluded B.xq i j ↔ 1 / 10 ^ 24 - 1 / 10 ^ 30 < dist2 B.xq i j)
    ∧ ¬ tholeIncluded B.xq i i
    ∧ tholePhiPair rsqrt rexp powSixth B mu p12 p13 i j
        = pscaleOf B p12 p13 i j * tholePhiPair rsqrt rexp powSixth B mu 1 1 i j
    ∧ (∀ k, tholeDphiPair rsqrt rexp powSixth B mu p12 p13 i j k
        = pscaleOf B p12 p13 i j
            * tholeDphiPair rsqrt rexp powSixth B mu 1 1 i j k)
    ∧ (∀ k l, tholeDdphiPair rsqrt rexp powSixth B mu p12 p13 i j k l
        = pscaleOf B p12 p13 i j
            * tholeDdphiPair rsqrt rexp powSixth B mu 1 1 i j k l)
    ∧ (listed13 B i j = true → pscaleOf B p12 p13 i j = p13)
    ∧ (listed13 B i j = false → listed12 B i j = true →
        pscaleOf B p12 p13 i j = p12)
    ∧ (listed13 B i j = false → listed12 B i j = false →
        pscaleOf B p12 p13 i j = 1) := by
  have hps1 : pscaleOf B 1 1 i j = 1 := by
    unfold pscaleOf
    by_cases h13 : listed13 B i j <;> by_cases h12 : listed12 B i j <;>
      simp [h13, h12]
  refine ⟨?_, ?_, ?_, ?_, ?_, ?_, ?_, ?_⟩
  · unfold tholeIncluded rnormSq epsQ
    constructor <;> intro h <;> nlinarith [h]
  · have h0 : dist2 B.xq i i = 0 := by unfold dist2; simp
    unfold tholeIncluded rnormSq epsQ
    rw [h0]
    norm_num
  · unfold tholePhiPair
    rw [hps1, Finset.mul_sum]
    exact Finset.sum_congr rfl fun k _ => by ring
  · intro k
    unfold tholeDphiPair
    rw [hps1, Finset.mul_sum]
    exact Finset.sum_congr rfl fun l _ => by ring
  · intro k l
    unfold tholeDdphiPair
    rw [hps1, Finset.mul_sum]
    exact Finset.sum_congr rfl fun m _ => by ring
  · intro h13; unfold pscaleOf; simp [h13]
  · intro h13 h12; unfold pscaleOf; simp [h13, h12]
  · intro h13 h12; unfold pscaleOf; simp [h13, h12]

/-- A concrete two-particle body whose exclusion topology lists particle 1 as
a 1-2 neighbour of particle 0 (CSR slice `[0, 1)` of the flattened array
`[1, …]`) and has an empty 1-3 list. -/
def c6chain : AmoebaBody :=
  { N := 2, xq := c5xq, q := fun _ => 0, d := fun _ _ => 0, Q := fun _ _ _ => 0,
    alphaxx := fun _ => 1, thole := fun _ => 39 / 100,
    polar_group := fun _ => 0,
    connections_12 := fun ii => if ii = 0 then 1 else 0,
    pointer_connections_12 := fun i => if i = 0 then 0 else 1,
    connections_13 := fun _ => 0, pointer_connections_13 := fun _ => 0 }

/-- C6 (witness): on the concrete chain topology, the pair (0, 1) is a 1-2
pair and the Thole scan selects `p12scale = 5` rather than `p13scale = 7`. -/
theorem C6_skip_and_scaling_witness :
    listed13 c6chain 0 1 = false ∧ listed12 c6chain 0 1 = true
    ∧ pscaleOf c6chain 5 7 0 1 = 5 :=
  ⟨by decide, by decide,
   (C6_skip_and_scaling (fun _ => 1) (fun _ => 0) (fun _ => 1) c6chain
      (fun _ _ => 0) 5 7 0 1).2.2.2.2.2.2.1 (by decide) (by decide)⟩

/-- Executing the loop body once and then iterating `m` times is the same as
iterating `m + 1` times from the start state. -/
theorem vacuumSteps_shift (rsqrt rexp powSixth : ℚ → ℚ) (B : AmoebaBody)
    (P : PolParams) (dphi_perm : ℕ → Vec3) (res : ℚ) (dcur : ℕ → Vec3)
    (m : ℕ) :
    vacuumSteps rsqrt rexp powSixth B P dphi_perm res dcur (m + 1)
      = vacuumSteps rsqrt rexp powSixth B P dphi_perm
          (rmsResidual rsqrt B.N dcur
            (vacuumStep rsqrt rexp powSixth B P dphi_perm dcur))
          (vacuumStep rsqrt rexp powSixth B P dphi_perm dcur) m := by
  induction m with
  | zero => rfl
  | succ m ih =>
    rw [vacuumSteps, ih]
    rfl

/-- C2: the vacuum induced-dipole `while` loop of
`calculate_induced_dipole_vacuum` has no iteration cap.  A run that returns a
state exits with its residual at or below `induced_dipole_iter_tol`; the fuel
of the model is exhausted (`none`) exactly when the residual stayed above the
tolerance at every reachable step, i.e. the loop keeps relaxing as long as the
root-mean-square change exceeds the tolerance; and a terminated run is
unchanged by granting more fuel — termination is never caused by a bound on
the iteration count. -/
theorem C2_vacuum_loop_no_cap (rsqrt rexp powSixth : ℚ → ℚ) (B : AmoebaBody)
    (P : PolParams) (dphi_perm : ℕ → Vec3) (fuel : ℕ) (res : ℚ)
    (dcur : ℕ → Vec3) :
    (∀ out,
        vacuumLoop rsqrt rexp powSixth B P dphi_perm fuel res dcur = some out →
          out.1 ≤ P.induced_dipole_iter_tol)
    ∧ (vacuumLoop rsqrt rexp powSixth B P dphi_perm fuel res dcur = none ↔
        ∀ m ≤ fuel, P.induced_dipole_iter_tol
          < (vacuumSteps rsqrt rexp powSixth B P dphi_perm res dcur m).1)
    ∧ (∀ out,
        vacuumLoop rsqrt rexp powSixth B P dphi_perm fuel res dcur = some out →
          vacuumLoop rsqrt rexp powSixth B P dphi_perm (fuel + 1) res dcur
            = some out) := by
  induction fuel generalizing res dcur with
  | zero =>
    refine ⟨?_, ?_, ?_⟩
    · intro out h
      by_cases hres : res ≤ P.induced_dipole_iter_tol
      · simp only [vacuumLoop, if_pos hres, Option.some.injEq] at h
        rw [← h]
        exact hres
      · simp [vacuumLoop, if_neg hres] at h
    · by_cases hres : res ≤ P.induced_dipole_iter_tol
      · simp only [vacuumLoop, if_pos hres]
        constructor
        · intro h; exact absurd h (by simp)
        · intro h
          have h0 := h 0 (Nat.le_refl 0)
          simp only [vacuumSteps] at h0
          exact absurd hres (not_le.mpr h0)
      · simp only [vacuumLoop, if_neg hres]
        constructor
        · intro _ m hm
          interval_cases m
          simpa only [vacuumSteps] using not_le.mp hres
        · intro _; trivial
    · intro out h
      by_cases hres : res ≤ P.induced_dipole_iter_tol
      · simp only [vacuumLoop, if_pos hres] at h ⊢
        exact h
      · simp [vacuumLoop, if_neg hres] at h
  | succ fuel ih =>
    by_cases hres : res ≤ P.induced_dipole_iter_tol
    · refine ⟨?_, ?_, ?_⟩
      · intro out h
        simp only [vacuumLoop, if_pos hres, Option.some.injEq] at h
        rw [← h]
        exact hres
      · simp only [vacuumLoop, if_pos hres]
        constructor
        · intro h; exact absurd h (by simp)
        · intro h
          have h0 := h 0 (Nat.zero_le _)
          simp only [vacuumSteps] at h0
          exact absurd hres (not_le.mpr h0)
      · intro out h
        simp only [vacuumLoop, if_pos hres, Option.some.injEq] at h ⊢
        exact h
    · have hstep :
          vacuumLoop rsqrt rexp powSixth B P dphi_perm (fuel + 1) res dcur
            = vacuumLoop rsqrt rexp powSixth B P dphi_perm fuel
                (rmsResidual rsqrt B.N dcur
                  (vacuumStep rsqrt rexp powSixth B P dphi_perm dcur))
                (vacuumStep rsqrt rexp powSixth B P dphi_perm dcur) := by
        simp only [vacuumLoop, if_neg hres]
      refine ⟨?_, ?_, ?_⟩
      · intro out h
        rw [hstep] at h
        exact (ih _ _).1 out h
      · rw [hstep, (ih _ _).2.1]
        constructor
        · intro h m hm
          match m with
          | 0 => simpa only [vacuumSteps] using not_le.mp hres
          | m + 1 =>
            rw [vacuumSteps_shift]
            exact h m (Nat.le_of_succ_le_succ hm)
        · intro h m hm
          have := h (m + 1) (Nat.succ_le_succ hm)
          rwa [vacuumSteps_shift] at this
      · intro out h
        rw [hstep] at h
        have hnext :
            vacuumLoop rsqrt rexp powSixth B P dphi_perm (fuel + 1 + 1) res dcur
              = vacuumLoop rsqrt rexp powSixth B P dphi_perm (fuel + 1)
                  (rmsResidual rsqrt B.N dcur
                    (vacuumStep rsqrt rexp powSixth B P dphi_perm dcur))
                  (vacuumStep rsqrt rexp powSixth B P dphi_perm dcur) := by
          simp only [vacuumLoop, if_neg hres]
        rw [hnext]
        exact (ih _ _).2.2 out h

/-- A concrete one-particle body sitting at the origin with no multipoles. -/
def c2body : AmoebaBody :=
  { N := 1, xq := fun _ _ => 0, q := fun _ => 0, d := fun _ _ => 0,
    Q := fun _ _ _ => 0, alphaxx := fun _ => 0, thole := fun _ => 39 / 100,
    polar_group := fun _ => 0,
    connections_12 := fun _ => 0, pointer_connections_12 := fun _ => 0,
    connections_13 := fun _ => 0, pointer_connections_13 := fun _ => 0 }

/-- Concrete solver parameters with a tolerance no residual can reach. -/
def c2params : PolParams :=
  { SOR := 7 / 10, ep_in := 4, induced_dipole_iter_tol := -1,
    p12scale := 1, p13scale := 1 }

/-- C2 (witness): with an unreachable tolerance the loop never exits on its
own — three fuel units are exhausted with every residual above tolerance. -/
theorem C2_vacuum_loop_no_cap_witness :
    vacuumLoop (fun _ => 1) (fun _ => 0) (fun _ => 1) c2body c2params
      (fun _ _ => 0) 3 1 (fun _ _ => 0) = none := by
  refine (C2_vacuum_loop_no_cap (fun _ => 1) (fun _ => 0) (fun _ => 1) c2body
    c2params (fun _ _ => 0) 3 1 (fun _ _ => 0)).2.1.mpr ?_
  intro m hm
  interval_cases m <;> simp [vacuumSteps, rmsResidual, c2params]

/-- C3: the induced-dipole solver seeds as specified — zeros in the vacuum
regime, the stored `results["induced_dipole"]` state in the dissolved regime —
updates every particle by the damped blend `d_old·(1−SOR) + (α·E_total)·SOR`,
evaluates the Thole field gradient with both exclusion scales equal to 1.0
(so the body's configured `p12scale`/`p13scale` never enter a step), and
computes the permanent-multipole field gradient once: an existing cache entry
is reused as-is, an absent one is filled from the kernel, and the loop threads
that single value through every step. -/
theorem C3_seed_step_cache (rsqrt rexp powSixth : ℚ → ℚ) (piQ : ℚ)
    (B : AmoebaBody) (P : PolParams) (dphi_perm : ℕ → Vec3)
    (dphi_reac stored dcur : ℕ → Vec3) (cached : Option (ℕ → Vec3))
    (fuel i : ℕ) (k : Fin 3) (a b : ℚ) (hi : i < B.N) :
    (calculateInducedDipoleVacuum rsqrt rexp powSixth B P cached fuel).2
        = vacuumLoop rsqrt rexp powSixth B P
            (calculateInducedDipoleVacuum rsqrt rexp powSixth B P cached fuel).1
            fuel 1 (fun _ _ => 0)
    ∧ (∀ v, cached = some v →
        (calculateInducedDipoleVacuum rsqrt rexp powSixth B P cached fuel).1 = v
        ∧ (calculateInducedDipoleDissolved rsqrt rexp powSixth piQ B P cached
            dphi_reac stored).1 = v)
    ∧ (cached = none →
        (calculateInducedDipoleVacuum rsqrt rexp powSixth B P cached fuel).1
          = (fun n => coulombDphiMultipole rsqrt rexp powSixth B true n)
        ∧ (calculateInducedDipoleDissolved rsqrt rexp powSixth piQ B P cached
            dphi_reac stored).1
          = (fun n => coulombDphiMultipole rsqrt rexp powSixth B true n))
    ∧ vacuumStep rsqrt rexp powSixth B P dphi_perm dcur i k
        = dcur i k * (1 - P.SOR)
          + B.alphaxx i
              * (-((dphi_perm i k
                    + tholeDphi rsqrt rexp powSixth B dcur 1 1 i k) / P.ep_in))
              * P.SOR
    ∧ vacuumStep rsqrt rexp powSixth B
        { P with p12scale := a, p13scale := b } dphi_perm dcur
        = vacuumStep rsqrt rexp powSixth B P dphi_perm dcur
    ∧ calculateInducedDipoleDissolved rsqrt rexp powSixth piQ B
        { P with p12scale := a, p13scale := b } cached dphi_reac stored
        = calculateInducedDipoleDissolved rsqrt rexp powSixth piQ B P cached
            dphi_reac stored
    ∧ (calculateInducedDipoleDissolved rsqrt rexp powSixth piQ B P cached
        dphi_reac stored).2 i k
        = stored i k * (1 - P.SOR)
          + B.alphaxx i
              * (-(((calculateInducedDipoleDissolved rsqrt rexp powSixth piQ B
                      P cached dphi_reac stored).1 i k
                    + tholeDphi rsqrt rexp powSixth B stored 1 1 i k) / P.ep_in
                   + 4 * piQ * dphi_reac i k))
              * P.SOR := by
  refine ⟨rfl, ?_, ?_, ?_, rfl, rfl, ?_⟩
  · intro v hv
    rw [hv]
    exact ⟨rfl, rfl⟩
  · intro hv
    rw [hv]
    exact ⟨rfl, rfl⟩
  · unfold vacuumStep
    rw [if_pos hi]
    ring
  · show (calculateInducedDipoleDissolved rsqrt rexp powSixth piQ B P cached
      dphi_reac stored).2 i k = _
    unfold calculateInducedDipoleDissolved
    simp only [if_pos hi]
    ring

/-- C3 (witness): the vacuum relaxation-step formula evaluated on the concrete
one-particle body at particle 0. -/
theorem C3_seed_step_cache_witness :
    vacuumStep (fun _ => 1) (fun _ => 0) (fun _ => 1) c2body c2params
      (fun _ _ => 0) (fun _ _ => 0) 0 0
      = (fun _ _ => (0 : ℚ)) 0 (0 : Fin 3) * (1 - c2params.SOR)
        + c2body.alphaxx 0
            * (-(((fun _ _ => (0 : ℚ)) 0 (0 : Fin 3)
                  + tholeDphi (fun _ => 1) (fun _ => 0) (fun _ => 1) c2body
                      (fun _ _ => 0) 1 1 0 0) / c2params.ep_in))
            * c2params.SOR :=
  (C3_seed_step_cache (fun _ => 1) (fun _ => 0) (fun _ => 1) 3 c2body c2params
    (fun _ _ => 0) (fun _ _ => 0) (fun _ _ => 0) (fun _ _ => 0) none 5 0 0 1 1
    (by decide)).2.2.2.1

/-- After processing the first `n` sources, the target's `A_inter` list holds
exactly the couplings to the sources `0, …, n-1` other than the target, in
source order. -/
theorem interLoopAux_fst {Op DOp : Type} (coupling : ℕ → ℕ → Op)
    (weakForm : Op → DOp) (i n : ℕ) :
    (interLoopAux coupling weakForm i n).1
      = ((List.range n).filter (fun k => !(i == k))).map (coupling i) := by
  induction n with
  | zero => rfl
  | succ n ih =>
    rw [List.range_succ, List.filter_append, List.map_append]
    by_cases h : i = n
    · simp only [interLoopAux, if_pos h]
      rw [ih]
      simp [h]
    · simp only [interLoopAux, if_neg h, lhsInterSoluteInteractions]
      rw [ih]
      simp [h]

/-- The length of the source range with the target removed. -/
theorem filter_ne_range_length (i n : ℕ) :
    ((List.range n).filter (fun k => !(i == k))).length
      = n - (if i < n then 1 else 0) := by
  induction n with
  | zero => rfl
  | succ n ih =>
    rw [List.range_succ, List.filter_append, List.length_append, ih]
    by_cases h : i = n
    · have hlast : (List.filter (fun k => !(i == k)) [n]).length = 0 := by
        simp [h]
      rw [hlast]
      have h2 : i < n + 1 := by omega
      have h3 : ¬ i < n := by omega
      simp only [if_pos h2, if_neg h3]
      omega
    · have hlast : (List.filter (fun k => !(i == k)) [n]).length = 1 := by
        simp [h]
      rw [hlast]
      by_cases h2 : i < n
      · have h3 : i < n + 1 := by omega
        simp only [if_pos h2, if_pos h3]
        omega
      · have h3 : ¬ i < n + 1 := by omega
        simp only [if_neg h2, if_neg h3]
        omega

/-- In the target-filtered source range, source `j ≠ i` sits at position `j`
when `i > j` and at position `j − 1` when `i < j` — the index-shift rule of
simulation.py lines 301-304. -/
theorem filter_ne_range_getElem (i j M : ℕ) (hj : j < M) (hne : i ≠ j) :
    ((List.range M).filter (fun k => !(i == k)))[if i > j then j else j - 1]?
      = some j := by
  induction M with
  | zero => omega
  | succ M ihM =>
    rw [List.range_succ, List.filter_append]
    by_cases hjM : j = M
    · subst hjM
      have hlast : List.filter (fun k => !(i == k)) [j] = [j] := by
        simp [hne]
      rw [hlast]
      by_cases hij : i > j
      · have hl : ((List.range j).filter (fun k => !(i == k))).length = j := by
          rw [filter_ne_range_length]
          have h2 : ¬ i < j := by omega
          simp [h2]
        have hcat := List.getElem?_concat_length
          ((List.range j).filter (fun k => !(i == k))) j
        rw [hl] at hcat
        rw [if_pos hij]
        exact hcat
      · have hij' : i < j := by omega
        have hl : ((List.range j).filter (fun k => !(i == k))).length
            = j - 1 := by
          rw [filter_ne_range_length]
          simp [hij']
        have hcat := List.getElem?_concat_length
          ((List.range j).filter (fun k => !(i == k))) j
        rw [hl] at hcat
        rw [if_neg hij]
        exact hcat
    · have hj' : j < M := by omega
      have hidx : (if i > j then j else j - 1)
          < ((List.range M).filter (fun k => !(i == k))).length := by
        rw [filter_ne_range_length]
        split_ifs <;> omega
      rw [List.getElem?_append_left hidx]
      exact ihM hj'

/-- After all `M` sources are processed, the off-diagonal entry for any source
`j ≠ i`, `j < M`, holds the weak form of the coupling for (target i, source
j). -/
theorem interLoopAux_snd {Op DOp : Type} (coupling : ℕ → ℕ → Op)
    (weakForm : Op → DOp) (i n j : ℕ) (hj : j < n) (hne : i ≠ j) :
    (interLoopAux coupling weakForm i n).2 j
      = some (weakForm (coupling i j)) := by
  induction n with
  | zero => omega
  | succ n ih =>
    by_cases hij : i = n
    · have hjn : j < n := by omega
      simp only [interLoopAux, if_pos hij]
      exact ih hjn
    · simp only [interLoopAux, if_neg hij, lhsInterSoluteInteractions]
      by_cases hjn : j = n
      · subst hjn
        simp only [if_pos rfl]
        rw [interLoopAux_fst]
        by_cases hin : i > j
        · have hl : (((List.range j).filter (fun k => !(i == k))).map
              (coupling i)).length = j := by
            rw [List.length_map, filter_ne_range_length]
            have h2 : ¬ i < j := by omega
            simp [h2]
          have hcat := List.getElem?_concat_length
            (((List.range j).filter (fun k => !(i == k))).map (coupling i))
            (coupling i j)
          rw [hl] at hcat
          rw [if_pos hin, hcat]
          rfl
        · have hij' : i < j := by omega
          have hl : (((List.range j).filter (fun k => !(i == k))).map
              (coupling i)).length = j - 1 := by
            rw [List.length_map, filter_ne_range_length]
            simp [hij']
          have hcat := List.getElem?_concat_length
            (((List.range j).filter (fun k => !(i == k))).map (coupling i))
            (coupling i j)
          rw [hl] at hcat
          rw [if_neg hin, hcat]
          rfl
      · have hj' : j < n := by omega
        simp only [if_neg hjn]
        exact ih hj'

/-- C1: `create_and_assemble_linear_system` builds an M×M block array whose
diagonal entry `A[i][i]` is body i's finalized (preconditioned) self block
`A_discrete` and whose off-diagonal entry `A[i][j]` is the weak form — never
touched by preconditioning — of the coupling operator the shared formulation
builds for (target i, source j); per target, the `A_inter` list holds the
couplings in source insertion order excluding the target, and the entry read
back at position `j` (when `i > j`) or `j − 1` (when `i < j`) is exactly the
coupling for (i, j). -/
theorem C1_block_assembly {Op DOp : Type} (selfBlock : ℕ → DOp)
    (coupling : ℕ → ℕ → Op) (weakForm : Op → DOp) (M i j : ℕ)
    (hi : i < M) (hj : j < M) :
    (i = j → createAndAssembleA selfBlock coupling weakForm M i j
        = some (selfBlock i))
    ∧ (i ≠ j → createAndAssembleA selfBlock coupling weakForm M i j
        = some (weakForm (coupling i j)))
    ∧ (interLoopAux coupling weakForm i M).1
        = ((List.range M).filter (fun k => !(i == k))).map (coupling i)
    ∧ (i ≠ j →
        ((interLoopAux coupling weakForm i M).1)[if i > j then j else j - 1]?
          = some (coupling i j)) := by
  refine ⟨?_, ?_, interLoopAux_fst coupling weakForm i M, ?_⟩
  · intro hij
    simp [createAndAssembleA, hi, hj, hij]
  · intro hne
    simp only [createAndAssembleA, if_pos (And.intro hi hj), if_neg hne]
    exact interLoopAux_snd coupling weakForm i M j hj hne
  · intro hne
    rw [interLoopAux_fst, List.getElem?_map, filter_ne_range_getElem i j M hj hne]
    rfl

/-- C1 (witness): the placement evaluated on a concrete two-body system with
numeric stand-ins for the operators. -/
theorem C1_block_assembly_witness :
    createAndAssembleA (fun _ => 100) (fun a b => 10 * a + b)
        (fun x => x + 1000) 2 0 1
      = some ((fun x : ℕ => x + 1000) ((fun a b : ℕ => 10 * a + b) 0 1)) :=
  (C1_block_assembly (fun _ => 100) (fun a b => 10 * a + b)
    (fun x => x + 1000) 2 0 1 (by decide) (by decide)).2.1 (by decide)

/-- C8: for a single-body simulation the assembled global operator is exactly
the body's own self block — no coupling block is ever constructed and the
`A_inter` list stays empty — and the assembled preconditioner rows consist
solely of the body's own sub-blocks, with no zero-fill block inserted. -/
theorem C8_single_body {Op DOp PB : Type} (selfBlock : ℕ → DOp)
    (coupling : ℕ → ℕ → Op) (weakForm : Op → DOp) (b : BodyPre PB)
    (own : List (List PB)) (hp : b.precond = some own) :
    createAndAssembleA selfBlock coupling weakForm 1
        = (fun i j => if i = 0 ∧ j = 0 then some (selfBlock 0) else none)
    ∧ (interLoopAux coupling weakForm 0 1).1 = []
    ∧ precondMatrix [b]
        = (if b.hasStern then
             [own.getD 0 [], own.getD 1 [], own.getD 2 [], own.getD 3 []]
           else [own.getD 0 [], own.getD 1 []]).map (List.map PBlock.real)
    ∧ ∀ row ∈ precondMatrix [b], ∀ blk ∈ row, ∀ m n,
        blk ≠ PBlock.zfill m n := by
  have hpm : precondMatrix [b] = precondRowsFor [b] 0 b := rfl
  have hrows : precondRowsFor [b] 0 b
      = (if b.hasStern then
           [own.getD 0 [], own.getD 1 [], own.getD 2 [], own.getD 3 []]
         else [own.getD 0 [], own.getD 1 []]).map (List.map PBlock.real) := by
    by_cases hs : b.hasStern = false <;>
      simp [precondRowsFor, hp, hs, List.enum]
  refine ⟨?_, rfl, hpm.trans hrows, ?_⟩
  · funext i j
    by_cases h0 : i = 0 ∧ j = 0
    · obtain ⟨hi0, hj0⟩ := h0
      subst hi0; subst hj0
      simp [createAndAssembleA]
    · have hr : ¬ (i < 1 ∧ j < 1) := by omega
      simp only [createAndAssembleA, if_neg hr, if_neg h0]
  · intro row hrow blk hblk m n
    rw [hpm, hrows] at hrow
    rcases List.mem_map.mp hrow with ⟨r, _, rfl⟩
    rcases List.mem_map.mp hblk with ⟨x, _, rfl⟩
    intro hcon
    exact PBlock.noConfusion hcon

/-- A concrete single body with a two-row preconditioner. -/
def c8body : BodyPre ℕ :=
  { oid := 0, hasStern := false, dofDiel := 3, dofStern := 4,
    precond := some [[1], [2]] }

/-- C8 (witness): the single-body preconditioner assembly evaluated on the
concrete body — the rows are exactly its own blocks, no zero fill. -/
theorem C8_single_body_witness :
    precondMatrix [c8body] = [[PBlock.real 1], [PBlock.real 2]] := by
  have h := (C8_single_body (fun _ => (0 : ℕ)) (fun _ _ => (0 : ℕ))
    (fun x : ℕ => x) c8body [[1], [2]] rfl).2.2.1
  simpa [c8body] using h

/-- The solute formulation setter never changes the object identity. -/
theorem solutePbFormulationSet_snd_oid (known : String → Bool)
    (t : SoluteState) (v : String) :
    ((solutePbFormulationSet known t v).2).oid = t.oid := by
  simp only [solutePbFormulationSet]
  split <;> rfl

/-- A fresh solute accepted by `add_solute` is appended exactly once at the
end of the list, carrying the simulation's shared parameters; the existing
entries keep their identities (the AMOEBA branch may update their formulation
but not their identity). -/
theorem addSolute_fresh (known : String → Bool) (sim : SimulationState)
    (s : SoluteState)
    (hmem : sim.solutes.any (fun t => t.oid == s.oid) = false)
    (hok : (addSolute known sim (.solute s)).1 = none) :
    ∃ s2 pre,
      (addSolute known sim (.solute s)).2.solutes = pre ++ [s2]
      ∧ pre.map (fun t => t.oid) = sim.solutes.map (fun t => t.oid)
      ∧ s2.oid = s.oid ∧ s2.ep_ex = sim.ep_ex ∧ s2.kappa = sim.kappa
      ∧ s2.SOR = sim.SOR
      ∧ s2.induced_dipole_iter_tol = sim.induced_dipole_iter_tol
      ∧ s2.operator_assembler = sim.operator_assembler
      ∧ s2.pb_formulation_preconditioning = sim.pb_formulation_preconditioning
      ∧ s2.pb_formulation_preconditioning_type
          = sim.pb_formulation_preconditioning_type := by
  simp only [addSolute, hmem, Bool.false_eq_true, if_false] at hok ⊢
  by_cases hst : (sim.pb_formulation.takeRight 5 == "stern"
      ∨ sim.pb_formulation == "slic")
  · simp only [if_pos hst] at hok ⊢
    by_cases ham : s.force_field = "amoeba"
    · simp only [ham, beq_self_eq_true, if_pos] at hok ⊢
      simp only [simPbFormulationSet] at hok ⊢
      by_cases hk : known "direct_amoeba" = true
      · simp only [hk, if_pos] at hok ⊢
        refine ⟨_, _, rfl, ?_, rfl, rfl, rfl, rfl, rfl, rfl, rfl, rfl⟩
        rw [List.map_map]
        simp [Function.comp, solutePbFormulationSet_snd_oid]
      · simp only [hk, Bool.false_eq_true, if_false] at hok
        exact absurd hok (by simp)
    · have ham' : (s.force_field == "amoeba") = false := by
        simp [ham]
      simp only [ham', Bool.false_eq_true, if_false] at hok ⊢
      exact ⟨_, _, rfl, rfl, rfl, rfl, rfl, rfl, rfl, rfl, rfl, rfl⟩
  · simp only [if_neg hst] at hok ⊢
    by_cases ham : s.force_field = "amoeba"
    · simp only [ham, beq_self_eq_true, if_pos] at hok ⊢
      simp only [simPbFormulationSet] at hok ⊢
      by_cases hk : known "direct_amoeba" = true
      · simp only [hk, if_pos] at hok ⊢
        refine ⟨_, _, rfl, ?_, rfl, rfl, rfl, rfl, rfl, rfl, rfl, rfl⟩
        rw [List.map_map]
        simp [Function.comp, solutePbFormulationSet_snd_oid]
      · simp only [hk, Bool.false_eq_true, if_false] at hok
        exact absurd hok (by simp)
    · have ham' : (s.force_field == "amoeba") = false := by
        simp [ham]
      simp only [ham', Bool.false_eq_true, if_false] at hok ⊢
      exact ⟨_, _, rfl, rfl, rfl, rfl, rfl, rfl, rfl, rfl, rfl, rfl⟩

/-- C10: `add_solute` raises `ValueError` and leaves the simulation unchanged
for a non-`Solute` argument; a solute already present (object identity) leaves
the simulation unchanged; otherwise the solute receives the shared simulation
parameters (ep_ex, kappa, SOR, induced-dipole tolerance, assembler,
preconditioning settings) and is appended exactly once at the end of the
list. -/
theorem C10_add_solute (known : String → Bool) (sim : SimulationState)
    (s : SoluteState) :
    ((addSolute known sim .nonSolute).1
        = some "Given object is not of the Solute class."
      ∧ (addSolute known sim .nonSolute).2 = sim)
    ∧ (sim.solutes.any (fun t => t.oid == s.oid) = true →
        addSolute known sim (.solute s) = (none, sim))
    ∧ (sim.solutes.any (fun t => t.oid == s.oid) = false →
        (addSolute known sim (.solute s)).1 = none →
        ((addSolute known sim (.solute s)).2.solutes.map (fun t => t.oid)
            = sim.solutes.map (fun t => t.oid) ++ [s.oid])
        ∧ ((((addSolute known sim (.solute s)).2.solutes.getLast?).getD s).oid
              = s.oid
          ∧ (((addSolute known sim (.solute s)).2.solutes.getLast?).getD
                s).ep_ex = sim.ep_ex
          ∧ (((addSolute known sim (.solute s)).2.solutes.getLast?).getD
                s).kappa = sim.kappa
          ∧ (((addSolute known sim (.solute s)).2.solutes.getLast?).getD
                s).SOR = sim.SOR
          ∧ (((addSolute known sim (.solute s)).2.solutes.getLast?).getD
                s).induced_dipole_iter_tol = sim.induced_dipole_iter_tol
          ∧ (((addSolute known sim (.solute s)).2.solutes.getLast?).getD
                s).operator_assembler = sim.operator_assembler
          ∧ (((addSolute known sim (.solute s)).2.solutes.getLast?).getD
                s).pb_formulation_preconditioning
              = sim.pb_formulation_preconditioning
          ∧ (((addSolute known sim (.solute s)).2.solutes.getLast?).getD
                s).pb_formulation_preconditioning_type
              = sim.pb_formulation_preconditioning_type)) := by
  refine ⟨⟨rfl, rfl⟩, ?_, ?_⟩
  · intro h
    simp [addSolute, h]
  · intro hmem hok
    obtain ⟨s2, pre, hlist, hpre, hoid, hep, hka, hsor, htol, hass, hpc, hpt⟩ :=
      addSolute_fresh known sim s hmem hok
    have hlast : ((addSolute known sim (.solute s)).2.solutes.getLast?).getD s
        = s2 := by
      rw [hlist, List.getLast?_concat]
      rfl
    constructor
    · rw [hlist, List.map_append, hpre]
      simp [hoid]
    · rw [hlast]
      exact ⟨hoid, hep, hka, hsor, htol, hass, hpc, hpt⟩

/-- C10 (witness): adding the concrete fresh solute to the empty concrete
simulation appends it once with the shared parameters copied. -/
theorem C10_add_solute_witness :
    ((addSolute (fun v => v == "direct") c4Sim (.solute c4Solute)).2.solutes.map
        (fun t => t.oid) = c4Sim.solutes.map (fun t => t.oid) ++ [c4Solute.oid])
    ∧ (((addSolute (fun v => v == "direct") c4Sim
          (.solute c4Solute)).2.solutes.getLast?).getD c4Solute).ep_ex
        = c4Sim.ep_ex := by
  have h := (C10_add_solute (fun v => v == "direct") c4Sim c4Solute).2.2
    (by decide) (by decide)
  exact ⟨h.1, h.2.2.1⟩

end PBJ
